import Mathlib

/-!
Shallow embedding of `minitorch/operators.py`: elementary scalar operators
over the reals, backward (derivative-weighted) helpers, and the higher-order
combinators `map`, `zipWith`, `reduce` with their convenience wrappers.

Python floats are modelled as real numbers.  Operations that can raise a
runtime error (`math.log` on a non-positive argument, `1 / x` at zero)
return `Option ℝ`, with `none` standing for the raised error.  Python's
`bool` results (`x < y`, `x == y`, `abs (x - y) < 1e-2`) follow the
boolean-as-float convention of the module (`True` is numerically `1.0`),
so `lt` and `eq` are embedded with value `1` or `0`.
-/

namespace minitorch

/-- Module constant `EPS = 1e-6`. -/
def EPS : ℝ := 1e-6

/-- `mul(x, y) = x * y`. -/
def mul (x y : ℝ) : ℝ := x * y

/-- `id(x) = x`. -/
def id (x : ℝ) : ℝ := x

/-- `add(x, y) = x + y`. -/
def add (x y : ℝ) : ℝ := x + y

/-- `neg(x) = -x`. -/
def neg (x : ℝ) : ℝ := -x

/-- `lt(x, y)`: `return x < y`, a Python bool used as the float
`1.0` / `0.0` (boolean-as-float convention). -/
noncomputable def lt (x y : ℝ) : ℝ := if x < y then 1 else 0

/-- `eq(x, y)`: `return x == y`, a Python bool used as the float
`1.0` / `0.0` (boolean-as-float convention). -/
noncomputable def eq (x y : ℝ) : ℝ := if x = y then 1 else 0

/-- `max(x, y)`: `return x if x > y else y`. -/
noncomputable def max (x y : ℝ) : ℝ := if x > y then x else y

/-- `is_close(x, y)`: `return abs(x - y) < 1e-2`, a Python bool, embedded
as the proposition it decides. -/
def is_close (x y : ℝ) : Prop := |x - y| < 1e-2

/-- `sigmoid(x)`: `1/(1 + exp(neg(x)))` when `x >= 0`, else
`exp(x) / (1 + exp(x))`. -/
noncomputable def sigmoid (x : ℝ) : ℝ :=
  if x ≥ 0 then 1 / (1 + Real.exp (neg x)) else Real.exp x / (1 + Real.exp x)

/-- `relu(x) = max(x, 0)`. -/
noncomputable def relu (x : ℝ) : ℝ := max x 0

/-- Python's `math.log`: raises `ValueError` (here `none`) exactly when the
argument is not strictly positive, else returns the natural logarithm. -/
noncomputable def mathLog (y : ℝ) : Option ℝ :=
  if 0 < y then some (Real.log y) else none

/-- `log(x)`: `return math.log(x + EPS)`. -/
noncomputable def log (x : ℝ) : Option ℝ := mathLog (x + EPS)

/-- `exp(x) = math.exp(x)`. -/
noncomputable def exp (x : ℝ) : ℝ := Real.exp x

/-- `inv(x)`: `return 1 / x`; Python raises `ZeroDivisionError` (here
`none`) exactly when `x = 0`. -/
noncomputable def inv (x : ℝ) : Option ℝ :=
  if x = 0 then none else some (1 / x)

/-- `log_back(x, d)`: `return inv(x) * d`; the error of `inv` propagates. -/
noncomputable def log_back (x d : ℝ) : Option ℝ :=
  (inv x).map (fun v => v * d)

/-- `inv_back(x, d)`: `return neg(inv(x) ** 2) * d`; the error of `inv`
propagates. -/
noncomputable def inv_back (x d : ℝ) : Option ℝ :=
  (inv x).map (fun v => neg (v ^ 2) * d)

/-- `relu_back(x, d)`: `return d if x > 0 else 0`. -/
noncomputable def relu_back (x d : ℝ) : ℝ := if x > 0 then d else 0

/-- `map(fn)`: builds the list of `fn x` for each `x` of the input, in
order (the Python loop appends `fn(x)` for each element). -/
def map (fn : ℝ → ℝ) : List ℝ → List ℝ
  | [] => []
  | x :: ls => fn x :: map fn ls

/-- `negList(ls) = map(neg)(ls)`. -/
def negList (ls : List ℝ) : List ℝ := map neg ls

/-- `zipWith(fn)`: the Python loop iterates over `zip(l1, l2)`, which stops
as soon as either list is exhausted, appending `fn(x, y)` for each pair. -/
def zipWith (fn : ℝ → ℝ → ℝ) : List ℝ → List ℝ → List ℝ
  | x :: l1, y :: l2 => fn x y :: zipWith fn l1 l2
  | _, _ => []

/-- `addLists(ls1, ls2) = zipWith(add)(ls1, ls2)`. -/
def addLists (ls1 ls2 : List ℝ) : List ℝ := zipWith add ls1 ls2

/-- The loop body of `reduce`: `ori = start; for w in ls: ori = fn(w, ori)`. -/
def reduceGo (fn : ℝ → ℝ → ℝ) : List ℝ → ℝ → ℝ
  | [], ori => ori
  | w :: ls, ori => reduceGo fn ls (fn w ori)

/-- `reduce(fn, start)`: returns the function folding a list with `fn`,
threading the accumulator as the second argument of `fn`. -/
def reduce (fn : ℝ → ℝ → ℝ) (start : ℝ) : List ℝ → ℝ :=
  fun ls => reduceGo fn ls start

/-- `sum(ls) = reduce(add, 0)(ls)`. -/
def sum (ls : List ℝ) : ℝ := reduce add 0 ls

/-- `prod(ls) = reduce(mul, 1)(ls)`. -/
def prod (ls : List ℝ) : ℝ := reduce mul 1 ls

/-! Helper lemmas. -/

/-- The loop of `reduce` is a left fold with the accumulator second. -/
theorem reduceGo_eq_foldl (fn : ℝ → ℝ → ℝ) (ls : List ℝ) (ori : ℝ) :
    reduceGo fn ls ori = ls.foldl (fun o w => fn w o) ori := by
  induction ls generalizing ori with
  | nil => rfl
  | cons w ls ih => simp [reduceGo, ih]

/-- Appending one element to the input applies `fn` once more, with the
new element first and the previous accumulator second. -/
theorem reduceGo_snoc (fn : ℝ → ℝ → ℝ) (xs : List ℝ) (x ori : ℝ) :
    reduceGo fn (xs ++ [x]) ori = fn x (reduceGo fn xs ori) := by
  induction xs generalizing ori with
  | nil => rfl
  | cons w xs ih => simp [reduceGo, ih]

/-- `zipWith` produces a list as long as the shorter input. -/
theorem zipWith_length (fn : ℝ → ℝ → ℝ) (a b : List ℝ) :
    (zipWith fn a b).length = min a.length b.length := by
  induction a generalizing b with
  | nil => cases b <;> simp [zipWith]
  | cons x l1 ih =>
    cases b with
    | nil => simp [zipWith]
    | cons y l2 =>
      simp only [zipWith, List.length_cons, ih]
      omega

/-- Within the common length, `zipWith fn` combines the elements at each
position with `fn`. -/
theorem zipWith_getD (fn : ℝ → ℝ → ℝ) (a b : List ℝ) (i : ℕ)
    (h : i < min a.length b.length) :
    (zipWith fn a b).getD i 0 = fn (a.getD i 0) (b.getD i 0) := by
  induction a generalizing b i with
  | nil => simp at h
  | cons x l1 ih =>
    cases b with
    | nil => simp at h
    | cons y l2 =>
      cases i with
      | zero => rfl
      | succ i =>
        have h' : i < min l1.length l2.length := by
          simp only [List.length_cons, Nat.lt_min] at h ⊢
          omega
        simpa [zipWith] using ih l2 i h'

/-! Theorems for the claims. -/

/-- C1: `reduce fn s0` consumes the elements first-to-last, passing the
accumulator as the second argument of `fn`: on `[x1, ..., xn]` it computes
`fn xn (fn x(n-1) (... (fn x1 s0)))` — equivalently a right fold over the
reversed list, with `reduce fn s0 (xs ++ [x]) = fn x (reduce fn s0 xs)`;
on a non-commutative `fn` and two elements the result is `fn x2 (fn x1 s0)`. -/
theorem reduce_fold_order (fn : ℝ → ℝ → ℝ) (s0 : ℝ) :
    (∀ ls : List ℝ, reduce fn s0 ls = List.foldr fn s0 ls.reverse) ∧
    (∀ (xs : List ℝ) (x : ℝ), reduce fn s0 (xs ++ [x]) = fn x (reduce fn s0 xs)) ∧
    (∀ x1 x2 : ℝ, reduce fn s0 [x1, x2] = fn x2 (fn x1 s0)) := by
  refine ⟨fun ls => ?_, fun xs x => reduceGo_snoc fn xs x s0, fun x1 x2 => rfl⟩
  rw [reduce, reduceGo_eq_foldl, List.foldr_reverse]

/-- C2: `zipWith fn` truncates to the shorter input (no error on length
mismatch), combines positionally with `fn`, and in particular
`zipWith add [1,2,3] [10,20] = [11,22]`. -/
theorem zipWith_truncation (fn : ℝ → ℝ → ℝ) (a b : List ℝ) (i : ℕ)
    (h : i < min a.length b.length) :
    (zipWith fn a b).length = min a.length b.length ∧
    (zipWith fn a b).getD i 0 = fn (a.getD i 0) (b.getD i 0) ∧
    zipWith add [1, 2, 3] [10, 20] = [11, 22] := by
  refine ⟨zipWith_length fn a b, zipWith_getD fn a b i h, ?_⟩
  show [add 1 10, add 2 20] = [11, 22]
  norm_num [add]

/-- Witness for C2 at `fn = add`, `a = [1,2,3]`, `b = [10,20]`, `i = 1`. -/
theorem zipWith_truncation_witness :
    (zipWith add [1, 2, 3] [10, 20]).length =
      min ([1, 2, 3] : List ℝ).length ([10, 20] : List ℝ).length ∧
    (zipWith add [1, 2, 3] [10, 20]).getD 1 0 =
      add (([1, 2, 3] : List ℝ).getD 1 0) (([10, 20] : List ℝ).getD 1 0) ∧
    zipWith add [1, 2, 3] [10, 20] = [11, 22] :=
  zipWith_truncation add [1, 2, 3] [10, 20] 1 (by decide)

/-- C9: `reduce fn start` returns `start` on the empty sequence; `sum` is
`reduce add 0` (so `sum [] = 0`) and `prod` is `reduce mul 1` (so
`prod [] = 1`). -/
theorem reduce_empty_sum_prod :
    (∀ (fn : ℝ → ℝ → ℝ) (start : ℝ), reduce fn start [] = start) ∧
    sum [] = 0 ∧ prod [] = 1 ∧
    (∀ ls : List ℝ, sum ls = reduce add 0 ls ∧ prod ls = reduce mul 1 ls) :=
  ⟨fun _ _ => rfl, rfl, rfl, fun _ => ⟨rfl, rfl⟩⟩

/-- In real arithmetic the two branches of `sigmoid` sum to exactly `1`
at `x` and `-x`. -/
theorem sigmoid_add_sigmoid_neg (x : ℝ) : sigmoid x + sigmoid (neg x) = 1 := by
  have hpos : ∀ t : ℝ, 0 < 1 + Real.exp t := fun t => by positivity
  rcases lt_trichotomy x 0 with hx | hx | hx
  · have h1 : ¬ x ≥ 0 := not_le.mpr hx
    have h2 : -x ≥ 0 := le_of_lt (neg_pos.mpr hx)
    simp only [sigmoid, neg, h1, h2, if_true, if_false, neg_neg]
    field_simp
    ring
  · subst hx
    simp only [sigmoid, neg, neg_zero, le_refl, if_true, ge_iff_le]
    rw [Real.exp_zero]
    norm_num
  · have h1 : x ≥ 0 := le_of_lt hx
    have h2 : ¬ -x ≥ 0 := not_le.mpr (neg_neg_iff_pos.mpr hx)
    simp only [sigmoid, neg, h1, h2, if_true, if_false]
    rw [div_add_div _ _ (ne_of_gt (hpos (-x))) (ne_of_gt (hpos (-x)))]
    rw [div_eq_one_iff_eq (by positivity)]
    ring

/-- C3: `log x` returns `ln (x + 1e-6)` when `x + 1e-6 > 0` and raises a
domain error (modelled as `none`) exactly when `x + 1e-6 ≤ 0`; in
particular `log 0 = some (ln 1e-6)` and `log (-1)` is an error. -/
theorem log_domain (x : ℝ) :
    (0 < x + EPS → log x = some (Real.log (x + EPS))) ∧
    (log x = none ↔ x + EPS ≤ 0) ∧
    log 0 = some (Real.log EPS) ∧
    log (-1) = none := by
  refine ⟨fun h => ?_, ?_, ?_, ?_⟩
  · simp [log, mathLog, h]
  · constructor
    · intro h
      by_contra hc
      simp [log, mathLog, lt_of_not_le hc] at h
    · intro h
      simp [log, mathLog, not_lt.mpr h]
  · norm_num [log, mathLog, EPS]
  · norm_num [log, mathLog, EPS]

/-- Witness for C3: the positive-branch hypothesis discharged at `x = 0`,
and the error branch at `x = -1`. -/
theorem log_domain_witness :
    log 0 = some (Real.log (0 + EPS)) ∧ log (-1) = none :=
  ⟨(log_domain 0).1 (by norm_num [EPS]), ((log_domain (-1)).2.1).mpr (by norm_num [EPS])⟩

/-- C4 counterexample: at `x = -1 ≤ -1e-6`, `d = 1`, `log_back` does NOT
fail: it returns `some ((1 / -1) * 1)`, refuting the claim that it raises
a domain error whenever `x ≤ -ε`. -/
theorem log_back_no_error_counterexample :
    (-1 : ℝ) ≤ -EPS ∧ log_back (-1) 1 = some (1 / (-1) * 1) := by
  constructor
  · norm_num [EPS]
  · simp [log_back, inv]

/-- C4 amended: for `x ≤ -1e-6` (hence `x ≠ 0`) `log_back x d` raises no
error at all; it returns `(1 / x) * d`.  Only `x = 0` makes `log_back`
fail, with the division-by-zero of `inv`, never with a log domain error. -/
theorem log_back_on_log_error_inputs (x d : ℝ) (h : x ≤ -EPS) :
    log_back x d = some (1 / x * d) := by
  have hx : x ≠ 0 := by
    have : x < 0 := lt_of_le_of_lt h (by norm_num [EPS])
    exact ne_of_lt this
  simp [log_back, inv, hx]

/-- Witness for C4's amended theorem at `x = -1`, `d = 2`. -/
theorem log_back_on_log_error_inputs_witness :
    log_back (-1) 2 = some (1 / (-1) * 2) :=
  log_back_on_log_error_inputs (-1) 2 (by norm_num [EPS])

/-- C5: for `x ≠ 0`, `log_back x d` is literally `inv x * d = (1 / x) * d`
(using `1 / x`, not `1 / (x + ε)`). -/
theorem log_back_uses_inv (x d : ℝ) (h : x ≠ 0) :
    log_back x d = some (1 / x * d) := by
  simp [log_back, inv, h]

/-- Witness for C5 at `x = 3`, `d = 5`. -/
theorem log_back_uses_inv_witness : log_back 3 5 = some (1 / 3 * 5) :=
  log_back_uses_inv 3 5 (by norm_num)

/-- C6: `lt x y` is the float `1` when `x < y` and `0` otherwise, and
`eq x y` is the float `1` when `x = y` and `0` otherwise. -/
theorem lt_eq_bool_as_float (x y : ℝ) :
    (x < y → lt x y = 1) ∧ (¬ x < y → lt x y = 0) ∧
    (x = y → eq x y = 1) ∧ (x ≠ y → eq x y = 0) := by
  refine ⟨fun h => ?_, fun h => ?_, fun h => ?_, fun h => ?_⟩ <;>
    simp [lt, eq, h]

/-- Witness for C6 at `(1, 2)`, `(2, 1)`, `(1, 1)` and `(1, 2)`. -/
theorem lt_eq_bool_as_float_witness :
    lt 1 2 = 1 ∧ lt 2 1 = 0 ∧ eq 1 1 = 1 ∧ eq 1 2 = 0 :=
  ⟨(lt_eq_bool_as_float 1 2).1 (by norm_num),
   (lt_eq_bool_as_float 2 1).2.1 (by norm_num),
   (lt_eq_bool_as_float 1 1).2.2.1 rfl,
   (lt_eq_bool_as_float 1 2).2.2.2 (by norm_num)⟩

/-- C7: `inv x` raises a division-by-zero error (modelled as `none`) iff
`x = 0`, else returns `1 / x`; `inv_back x d` fails iff `x = 0`, else
returns `d * (-1 / x ^ 2)`. -/
theorem inv_and_inv_back (x d : ℝ) :
    (inv x = none ↔ x = 0) ∧ (x ≠ 0 → inv x = some (1 / x)) ∧
    (inv_back x d = none ↔ x = 0) ∧
    (x ≠ 0 → inv_back x d = some (d * (-1 / x ^ 2))) := by
  refine ⟨?_, fun h => by simp [inv, h], ?_, fun h => ?_⟩
  · by_cases h : x = 0 <;> simp [inv, h]
  · by_cases h : x = 0 <;> simp [inv_back, inv, h]
  · simp only [inv_back, inv, h, if_false, Option.map_some', Option.some.injEq, neg]
    ring

/-- Witness for C7 at `x = 2`, `d = 3`. -/
theorem inv_and_inv_back_witness :
    (inv 2 = none ↔ (2 : ℝ) = 0) ∧ inv 2 = some (1 / 2) ∧
    (inv_back 2 3 = none ↔ (2 : ℝ) = 0) ∧
    inv_back 2 3 = some (3 * (-1 / 2 ^ 2)) :=
  ⟨(inv_and_inv_back 2 3).1,
   (inv_and_inv_back 2 3).2.1 (by norm_num),
   (inv_and_inv_back 2 3).2.2.1,
   (inv_and_inv_back 2 3).2.2.2 (by norm_num)⟩

/-- C8: for every `x`, `is_close (sigmoid x + sigmoid (neg x)) 1`:
the two stability branches of `sigmoid` make the logistic symmetry hold
within the `0.01` tolerance (in real arithmetic, exactly). -/
theorem sigmoid_symmetry (x : ℝ) : is_close (sigmoid x + sigmoid (neg x)) 1 := by
  rw [is_close, sigmoid_add_sigmoid_neg]
  norm_num

/-- C10: `sigmoid x` lies strictly between `0` and `1` in both branches. -/
theorem sigmoid_range (x : ℝ) : 0 < sigmoid x ∧ sigmoid x < 1 := by
  rw [sigmoid]
  split_ifs with h
  · have he : 0 < Real.exp (neg x) := Real.exp_pos _
    constructor
    · positivity
    · rw [div_lt_one (by positivity)]
      linarith
  · have he : 0 < Real.exp x := Real.exp_pos x
    constructor
    · positivity
    · rw [div_lt_one (by positivity)]
      linarith

end minitorch
